import Mathlib

/-!
# Verification of the wiki-person-analyzer extraction core

Shallow embedding of the text-to-structured-data extraction pipeline of the
`wiki-person-analyzer` repository, together with theorems settling the frozen
claims about its specification.

Modelling conventions:
* Python strings are Lean `String`s; most functions are defined on `List Char`
  (`String.data`) with `String`-level wrappers that keep the source names.
* Python regular-expression character classes are modelled on the character
  repertoire that occurs in this code base: `\d` is an ASCII digit (the inputs
  contain no other Unicode digits), `\s` is the whitespace set used by Python
  (space, tab, newline, carriage return, vertical tab, form feed, and the
  ideographic space U+3000).
* External libraries (`dateparser`, `datetime.strptime`) are modelled by total
  Lean functions following their documented behaviour on the input families the
  code feeds them; their definitions are marked accordingly.
* Exceptions are modelled with `Option`: `none` is a raised exception.
-/

namespace PyStr

/-- Python regex `\d` (ASCII repertoire, see module conventions). -/
def pyIsDigit (c : Char) : Bool := '0' ≤ c && c ≤ '9'

/-- Python regex `\s` / `str.strip` whitespace set (see module conventions). -/
def pyIsSpace (c : Char) : Bool :=
  c = ' ' || c = '\t' || c = '\n' || c = '\r' ||
  c = Char.ofNat 11 || c = Char.ofNat 12 || c = Char.ofNat 0x3000

/-- Numeric value of an ASCII digit. -/
def digitVal (c : Char) : Nat := c.toNat - '0'.toNat

/-- Python `int(...)` on a string of ASCII digits. -/
def pyIntNat (ds : List Char) : Nat :=
  ds.foldl (fun acc c => 10 * acc + digitVal c) 0

/-- Decimal digit character for `n < 10`. -/
def digitChar (n : Nat) : Char := Char.ofNat ('0'.toNat + n % 10)

/-- Auxiliary digit accumulator for `natDigits` (fuel-driven, fuel ≥ value). -/
def natDigitsAux : Nat → Nat → List Char → List Char
  | 0, n, acc => digitChar (n % 10) :: acc
  | fuel + 1, n, acc =>
    if n < 10 then digitChar n :: acc
    else natDigitsAux fuel (n / 10) (digitChar (n % 10) :: acc)

/-- Decimal representation of a natural number, as Python `str(int)` prints it
(no sign, no leading zeros, `0 ↦ "0"`). -/
def natDigits (n : Nat) : List Char := natDigitsAux n n []

/-- Python `str(...)` on an `int` value (possibly negative). -/
def intStr (i : Int) : String :=
  if i < 0 then String.mk ('-' :: natDigits i.natAbs) else String.mk (natDigits i.natAbs)

/-- Left-pad a digit list with zeros to the given width (strftime zero fill). -/
def padZeros (width : Nat) (ds : List Char) : List Char :=
  List.replicate (width - ds.length) '0' ++ ds

/-- Python `str.strip()`: remove leading and trailing whitespace. -/
def pyStrip (cs : List Char) : List Char :=
  ((cs.dropWhile pyIsSpace).reverse.dropWhile pyIsSpace).reverse

/-- Python `str.split(sep)` for a single-character separator. -/
def splitChars (sep : Char) : List Char → List (List Char)
  | [] => [[]]
  | c :: rest =>
    match splitChars sep rest with
    | [] => if c = sep then [[], []] else [[c]]
    | g :: gs => if c = sep then [] :: g :: gs else (c :: g) :: gs

/-- Python substring membership `needle in hay`. -/
def containsSub (needle hay : List Char) : Bool :=
  hay.tails.any (fun t => needle.isPrefixOf t)

/-- Python `needle in hay` on `String`s. -/
def pyIn (needle hay : String) : Bool := containsSub needle.data hay.data

end PyStr

open PyStr

namespace DataNormalizer

/-! ## `core/data_normalizer.py` — `DataNormalizer` -/

/-- The era table of `convert_japanese_era_to_gregorian`, in Python dict
insertion (= iteration) order. -/
def eras : List (String × Nat) :=
  [("令和", 2019), ("平成", 1989), ("昭和", 1926), ("大正", 1912), ("明治", 1868)]

/-- The optional `月` literal of the era pattern: consumed when present. -/
def afterMonthMark : List Char → List Char
  | '月' :: r => r
  | r => r

/-- An optional `(\d+)?` group: the greedy digit run, or `None` when empty. -/
def optDigitGroup (rest : List Char) : Option (List Char) :=
  if rest.takeWhile pyIsDigit = [] then none else some (rest.takeWhile pyIsDigit)

/-- The `(\d+)?月?(\d+)?日?` tail of the era pattern after `年`: the optional
month-digit group, then the optional day-digit group after the optional `月`. -/
def eraMonthDay (rest₂ : List Char) : Option (List Char) × Option (List Char) :=
  (optDigitGroup rest₂,
   optDigitGroup (afterMonthMark (rest₂.drop (rest₂.takeWhile pyIsDigit).length)))

/-- Groups of a successful `re.match(rf"{era}(\d+)年(\d+)?月?(\d+)?日?", s)`:
the era-year digits, the optional month digits and the optional day digits.
The pattern has no overlapping alternatives, so greedy maximal munch is exact. -/
def eraMatchAt (eraName : List Char) (cs : List Char) :
    Option (List Char × Option (List Char) × Option (List Char)) :=
  if eraName.isPrefixOf cs then
    if (cs.drop eraName.length).takeWhile pyIsDigit = [] then none
    else
      match (cs.drop eraName.length).drop
          ((cs.drop eraName.length).takeWhile pyIsDigit).length with
      | '年' :: rest₂ =>
        some ((cs.drop eraName.length).takeWhile pyIsDigit, eraMonthDay rest₂)
      | _ => none
  else none

/-- Loop body of `convert_japanese_era_to_gregorian`: try each era in table
order; on the first match rebuild `f"{year}年{month}月{day}日"`. -/
def convertEraChars : List (String × Nat) → List Char → Option (List Char)
  | [], _ => none
  | (era, startYear) :: rest, cs =>
    match eraMatchAt era.data cs with
    | some (ds₁, m, d) =>
      let year := startYear + pyIntNat ds₁ - 1
      let month := m.getD ['0', '1']
      let day := d.getD ['0', '1']
      some (natDigits year ++ '年' :: month ++ '月' :: day ++ ['日'])
    | none => convertEraChars rest cs

/-- `DataNormalizer.convert_japanese_era_to_gregorian`: convert a Japanese era
date to a Gregorian `年月日` string; unmatched inputs pass through unchanged. -/
def convert_japanese_era_to_gregorian (s : String) : String :=
  match convertEraChars eras s.data with
  | some out => String.mk out
  | none => s

/-- Gregorian leap-year test (as `datetime`). -/
def isLeap (y : Nat) : Bool := (y % 4 = 0 && y % 100 ≠ 0) || y % 400 = 0

/-- Days in a month (as `datetime`). -/
def daysInMonth (y m : Nat) : Nat :=
  if m = 2 then (if isLeap y then 29 else 28)
  else if m = 4 || m = 6 || m = 9 || m = 11 then 30
  else 31

/-- Modelled from the `dateparser` library contract (`dateparser.parse` with
`DATE_ORDER='YMD'`) on the input family this code feeds it: strings of the
form `<digits>年<ws*><digits>月<ws*><digits>日`. Returns the calendar-valid
`(year, month, day)` or `none` (the library returns `None` on anything it
cannot parse as a valid date; `datetime` years are `1..9999`). -/
def dateparserYmd (cs : List Char) : Option (Nat × Nat × Nat) :=
  let ys := cs.takeWhile pyIsDigit
  if ys = [] then none
  else
    match cs.drop ys.length with
    | '年' :: r₁ =>
      let r₂ := r₁.dropWhile pyIsSpace
      let ms := r₂.takeWhile pyIsDigit
      if ms = [] then none
      else
        match r₂.drop ms.length with
        | '月' :: r₃ =>
          let r₄ := r₃.dropWhile pyIsSpace
          let ds := r₄.takeWhile pyIsDigit
          if ds = [] then none
          else
            match r₄.drop ds.length with
            | ['日'] =>
              let y := pyIntNat ys
              let m := pyIntNat ms
              let d := pyIntNat ds
              if 1 ≤ y && y ≤ 9999 && 1 ≤ m && m ≤ 12 && 1 ≤ d && d ≤ daysInMonth y m
              then some (y, m, d) else none
            | _ => none
        | _ => none
    | _ => none

/-- `datetime.strftime("%Y-%m-%d")` on a valid date (zero-filled fields). -/
def formatYmd (y m d : Nat) : List Char :=
  padZeros 4 (natDigits y) ++ '-' :: padZeros 2 (natDigits m) ++ '-' :: padZeros 2 (natDigits d)

/-- `DataNormalizer.normalize_date`: normalize a date string to `YYYY-MM-DD`;
`none` models Python `None` (empty/`不明`/unparseable input). -/
def normalize_date (s : String) : Option String :=
  if s = "" || s = "不明" then none
  else
    match dateparserYmd (convert_japanese_era_to_gregorian s).data with
    | some (y, m, d) => some (String.mk (formatYmd y m d))
    | none => none

end DataNormalizer

namespace DataExtractor

/-! ## `core/data_extractor.py` — `DataExtractor` -/

/-- Try `re`'s match of `\d{4}年\s*\d{1,2}月\s*\d{1,2}日` anchored at the head
of `cs`, returning the matched characters. The only backtracking point is the
greedy `\d{1,2}` (try two digits, then one). -/
def matchDateAt (cs : List Char) : Option (List Char) :=
  match cs with
  | a :: b :: c :: d :: '年' :: rest =>
    if pyIsDigit a && pyIsDigit b && pyIsDigit c && pyIsDigit d then
      let ws₁ := rest.takeWhile pyIsSpace
      let afterWs₁ := rest.drop ws₁.length
      let month : Option (List Char × List Char) :=
        match afterWs₁ with
        | m₁ :: m₂ :: '月' :: r => if pyIsDigit m₁ && pyIsDigit m₂ then some ([m₁, m₂], r)
            else if pyIsDigit m₁ && m₂ = '月' then some ([m₁], '月' :: r) else none
        | m₁ :: '月' :: r => if pyIsDigit m₁ then some ([m₁], r) else none
        | _ => none
      match month with
      | none => none
      | some (mds, afterMonth) =>
        let ws₂ := afterMonth.takeWhile pyIsSpace
        let afterWs₂ := afterMonth.drop ws₂.length
        let day : Option (List Char) :=
          match afterWs₂ with
          | d₁ :: d₂ :: '日' :: _ => if pyIsDigit d₁ && pyIsDigit d₂ then some [d₁, d₂]
              else if pyIsDigit d₁ && d₂ = '日' then some [d₁] else none
          | d₁ :: '日' :: _ => if pyIsDigit d₁ then some [d₁] else none
          | _ => none
        match day with
        | none => none
        | some dds =>
          some ([a, b, c, d] ++ '年' :: ws₁ ++ mds ++ '月' :: ws₂ ++ dds ++ ['日'])
    else none
  | _ => none

/-- `re.search(r"(\d{4}年\s*\d{1,2}月\s*\d{1,2}日)", value)`: leftmost match. -/
def searchDate (cs : List Char) : Option (List Char) :=
  match cs with
  | [] => matchDateAt []
  | _ :: rest =>
    match matchDateAt cs with
    | some m => some m
    | none => searchDate rest

/-- The sentinel sub-record `{"年": "不明", "月": "不明", "日": "不明", "全体": "不明"}`. -/
def unknownFields : List (String × String) :=
  [("年", "不明"), ("月", "不明"), ("日", "不明"), ("全体", "不明")]

/-- Shared body of `extract_and_format_birth_date` / `extract_and_format_death_date`
(identical except for the outer key). `none` models a raised exception (the
`year, month, day = normalized_date.split('-')` unpacking). -/
def extractDateRecord (outerKey : String) (value : String) :
    Option (List (String × List (String × String))) :=
  match searchDate value.data with
  | some dateChars =>
    match DataNormalizer.normalize_date (String.mk dateChars) with
    | some nd =>
      match splitChars '-' nd.data with
      | [y, m, d] =>
        some [(outerKey,
          [("年", String.mk y), ("月", String.mk m), ("日", String.mk d), ("全体", nd)])]
      | _ => none
    | none => some [(outerKey, unknownFields)]
  | none => some [(outerKey, unknownFields)]

/-- `DataExtractor.extract_and_format_birth_date`. -/
def extract_and_format_birth_date (value : String) :
    Option (List (String × List (String × String))) :=
  extractDateRecord "生年月日" value

/-- `DataExtractor.extract_and_format_death_date`. -/
def extract_and_format_death_date (value : String) :
    Option (List (String × List (String × String))) :=
  extractDateRecord "没年月日" value

/-- Modelled from CPython `datetime.strptime(s, "%Y-%m-%d")`: `%Y` is exactly
four digits, `%m`/`%d` one or two digits, the whole string must be consumed and
the triple must be a valid calendar date (years `1..9999`); `none` models the
`ValueError` raised otherwise. -/
def strptimeYmd (s : String) : Option (Nat × Nat × Nat) :=
  match s.data with
  | a :: b :: c :: d :: '-' :: rest =>
    if pyIsDigit a && pyIsDigit b && pyIsDigit c && pyIsDigit d then
      let y := pyIntNat [a, b, c, d]
      let ms := rest.takeWhile pyIsDigit
      if ms = [] || ms.length > 2 then none
      else
        match rest.drop ms.length with
        | '-' :: rest₂ =>
          let ds := rest₂.takeWhile pyIsDigit
          if ds = [] || ds.length > 2 || rest₂.drop ds.length ≠ [] then none
          else
            let m := pyIntNat ms
            let dd := pyIntNat ds
            if 1 ≤ y && 1 ≤ m && m ≤ 12 && 1 ≤ dd && dd ≤ DataNormalizer.daysInMonth y m
            then some (y, m, dd) else none
        | _ => none
    else none
  | _ => none

/-- `DataExtractor.calculate_age_at_death`; `none` models the `ValueError`
propagated out of `strptime` on a non-sentinel unparseable date. -/
def calculate_age_at_death (birth_date death_date : String) : Option String :=
  if birth_date = "不明" ∨ death_date = "不明" then some "不明"
  else
    match strptimeYmd birth_date, strptimeYmd death_date with
    | some (byr, bm, bd), some (dy, dm, dd) =>
      some (intStr ((dy : Int) - (byr : Int) -
        (if dm < bm ∨ (dm = bm ∧ dd < bd) then 1 else 0)))
    | _, _ => none

end DataExtractor

namespace DataProcessor

/-! ## `data_processor.py` — `DataProcessor` -/

/-- First maximal run of digits anywhere in the string (`re.search(r'\d+', s)`),
or `none` when the string has no digit. -/
def firstDigitRun : List Char → Option (List Char)
  | [] => none
  | c :: rest =>
    if pyIsDigit c then some ((c :: rest).takeWhile pyIsDigit)
    else firstDigitRun rest

/-- `DataProcessor.convert_to_ce`: convert a year string to a CE year.
`era` is `year_str[0]` — a single character — which is then compared against
the two-character era names, exactly as the source does; the final `none`
is the function's `return None` fall-through (and the `except` path when the
string has no digits). -/
def convert_to_ce (year_str : String) : Option Nat :=
  let cs := year_str.data
  if ¬ ('年' ∈ cs) then none
  else
    let head4 := cs.take 4
    if head4 ≠ [] && head4.all pyIsDigit then some (pyIntNat head4)
    else
      match cs with
      | [] => none
      | eraChar :: _ =>
        match firstDigitRun cs with
        | none => none
        | some ds =>
          let era := String.mk [eraChar]
          let year_num := pyIntNat ds
          let year_num := if era = "元" then 1 else year_num
          if era = "明治" then some (1867 + year_num)
          else if era = "大正" then some (1911 + year_num)
          else if era = "昭和" then some (1925 + year_num)
          else if era = "平成" then some (1988 + year_num)
          else if era = "令和" then some (2018 + year_num)
          else none

end DataProcessor

namespace Analyzer

/-! ## `analyzer.py` — `Analyzer`

The timeline dataframe is modelled as a list of rows; spaCy's tokenizer is an
external collaborator, so an event is modelled as its token sequence in
textual order. -/

/-- `career_keywords` of `_determine_event_type_spacy`. -/
def career_keywords : List String :=
  ["就任", "退任", "転職", "入社", "卒業", "入学", "就職", "退職", "異動", "昇進",
   "降格", "転籍", "出向"]

/-- `success_keywords` of `_determine_event_type_spacy` (the source lists
`公開` twice). -/
def success_keywords : List String :=
  ["受賞", "成功", "発表", "出版", "達成", "開発", "設立", "創設", "創立", "完成",
   "発売", "公開", "公開", "ヒット", "貢献", "寄与"]

/-- `failure_keywords` of `_determine_event_type_spacy`. -/
def failure_keywords : List String :=
  ["失敗", "敗北", "撤退", "辞任", "逮捕", "解任", "辞職", "倒産", "解散", "炎上",
   "不祥事", "事故", "事件", "災害", "死去", "死亡", "解雇", "リストラ"]

/-- `Analyzer._determine_event_type_spacy`: walk the document tokens in order;
for each token check the career, success and failure lists in that order and
return on the first hit; `none` when no token matches any list. -/
def determine_event_type_spacy : List String → Option String
  | [] => none
  | t :: rest =>
    if t ∈ career_keywords then some "career_change"
    else if t ∈ success_keywords then some "success"
    else if t ∈ failure_keywords then some "failure"
    else determine_event_type_spacy rest

/-- `Analyzer.identify_turning_points`: keep the rows whose event (given as its
token sequence) is classified, pairing them with the classification. -/
def identify_turning_points (rows : List (Int × List String)) :
    List (Int × List String × String) :=
  rows.filterMap fun row =>
    match determine_event_type_spacy row.2 with
    | some eventType => some (row.1, row.2, eventType)
    | none => none

/-- `str(y).replace("-", "")` followed by `int(...)` on an integer year drops
a leading minus sign: the absolute value. -/
def yearTransform (y : Int) : Int := (y.natAbs : Int)

/-- `pandas.unique`: first-occurrence deduplication. -/
def uniqueFirst : List Int → List Int
  | [] => []
  | y :: rest => y :: (uniqueFirst rest).filter (fun z => z ≠ y)

/-- Insert into an ascending list (stable), for Python `sorted`. -/
def insertAsc (y : Int) : List Int → List Int
  | [] => [y]
  | z :: rest => if y ≤ z then y :: z :: rest else z :: insertAsc y rest

/-- Python `sorted(...)` (ascending insertion sort). -/
def sortAsc : List Int → List Int
  | [] => []
  | y :: rest => insertAsc y (sortAsc rest)

/-- `sorted(df["year"].astype(str).str.replace("-", "").astype(int).unique())`. -/
def sortedUniqueYears (raw : List Int) : List Int :=
  sortAsc (uniqueFirst (raw.map yearTransform))

/-- The index loop of `detect_activity_periods`: `startOpt` is the `start_year`
variable (`none` = Python `None`); a period closes when the gap to the next
year exceeds 3, and the trailing open period closes at the last year. -/
def periodsLoop : Option Int → List Int → List (Int × Int)
  | _, [] => []
  | startOpt, [y] => [(startOpt.getD y, y)]
  | startOpt, y :: y₂ :: rest =>
    let start := startOpt.getD y
    if y₂ - y > 3 then (start, y) :: periodsLoop none (y₂ :: rest)
    else periodsLoop (some start) (y₂ :: rest)

/-- `Analyzer.detect_activity_periods` on the timeline's year column. -/
def detect_activity_periods (raw : List Int) : List (Int × Int) :=
  match raw with
  | [] => []
  | _ => periodsLoop none (sortedUniqueYears raw)

/-- Specification-level description of activity periods (claim wording): split
the year list into maximal runs in which each gap to the next year is at most
3 years; a gap of more than 3 years starts a new run. -/
def gapRuns : List Int → List (List Int)
  | [] => []
  | [y] => [[y]]
  | y :: y₂ :: rest =>
    match gapRuns (y₂ :: rest) with
    | [] => [[y]]
    | g :: gs => if y₂ - y > 3 then [y] :: g :: gs else (y :: g) :: gs

/-- Specification-level activity periods: each maximal run is recorded as
`(first year, last year)`. -/
def specPeriods (ys : List Int) : List (Int × Int) :=
  (gapRuns ys).map fun g => (g.headD 0, g.getLastD 0)

/-- One row of the relation-network dataframe. -/
structure Edge where
  source : String
  target : String
  relation : String
deriving DecidableEq, Repr

/-- Node list of `nx.from_pandas_edgelist` (insertion order, deduplicated). -/
def graphNodes (edges : List Edge) : List String :=
  (edges.flatMap fun e => [e.source, e.target]).foldl
    (fun acc n => if n ∈ acc then acc else acc ++ [n]) []

/-- Neighbor list of a node in the constructed undirected graph. -/
def neighborsOf (edges : List Edge) (n : String) : List String :=
  ((edges.filterMap fun e => if e.source = n then some e.target else none) ++
   (edges.filterMap fun e => if e.target = n then some e.source else none)).foldl
    (fun acc m => if m ∈ acc then acc else acc ++ [m]) []

/-- `nx.Graph.degree`: number of incident edges, a self-loop counting twice. -/
def degreeOf (edges : List Edge) (n : String) : Nat :=
  (neighborsOf edges n).length + (if edges.any fun e => e.source = n && e.target = n then 1 else 0)

/-- `nx.degree_centrality`: degree times `1/(n-1)` (or times 1 for a graph
with at most one node). Floating-point values are modelled as rationals. -/
def degree_centrality (edges : List Edge) : List (String × Rat) :=
  let nodes := graphNodes edges
  let s : Rat := if nodes.length ≤ 1 then 1 else (1 : Rat) / (nodes.length - 1 : Nat)
  nodes.map fun n => (n, (degreeOf edges n : Rat) * s)

/-- Result record of `Analyzer.analyze_network`. -/
structure NetworkResult where
  graph : Option (List String × List Edge)
  related_persons : List String
  relations_by_type : List (String × List String)
  centrality : List (String × List (String × Rat))
deriving Repr

/-- Add to a Python `set` modelled as a first-occurrence list. -/
def addIfAbsent (x : String) (l : List String) : List String :=
  if x ∈ l then l else l ++ [x]

/-- Update the `relations_by_type` dict with one dataframe row. -/
def relationsStep (target_person : Option String) (acc : List (String × List String))
    (e : Edge) : List (String × List String) :=
  let acc := if acc.any fun kv => kv.1 = e.relation then acc else acc ++ [(e.relation, [])]
  let acc := acc.map fun kv =>
    if kv.1 = e.relation ∧ target_person ≠ some e.source
    then (kv.1, addIfAbsent e.source kv.2) else kv
  acc.map fun kv =>
    if kv.1 = e.relation ∧ target_person ≠ some e.target
    then (kv.1, addIfAbsent e.target kv.2) else kv

/-- `Analyzer.analyze_network`: build the undirected graph from the network
dataframe, collect neighbor/relation summaries, and compute centrality.
The centrality dict receives a `degree_centrality` entry when the graph has
more than zero nodes; no other entry is ever inserted. Python `set` iteration
order is modelled as first-occurrence order. -/
def analyze_network (edges : List Edge) (target_person : Option String) : NetworkResult :=
  match edges with
  | [] => { graph := none, related_persons := [], relations_by_type := [], centrality := [] }
  | _ =>
    let nodes := graphNodes edges
    let related_persons :=
      match target_person with
      | some t => if t ∈ nodes then neighborsOf edges t else []
      | none => []
    let relations_by_type := edges.foldl (relationsStep target_person) []
    let centrality : List (String × List (String × Rat)) :=
      if nodes.length > 0 then [("degree_centrality", degree_centrality edges)] else []
    { graph := some (nodes, edges), related_persons := related_persons,
      relations_by_type := relations_by_type, centrality := centrality }

end Analyzer

namespace DataNormalizer

/-! ## `core/data_normalizer.py` — `extract_country_from_birth_info` -/

/-- `known_countries` of `extract_country_from_birth_info`, in source order. -/
def known_countries : List String :=
  ["アメリカ合衆国", "ドイツ帝国", "ポーランド立憲王国", "フランス共和国", "日本", "イギリス",
   "カナダ", "中国", "ロシア", "インド", "ブラジル", "オーストラリア", "イタリア", "スペイン", "韓国"]

/-- Try the country alternation at the head of `cs` (first listed alternative
wins, as in the regex engine); returns the country and the text after it. -/
def countryMatchAt (cs : List Char) : Option (String × List Char) :=
  known_countries.findSome? fun c =>
    if c.data.isPrefixOf cs then some (c, cs.drop c.data.length) else none

/-- `country_pattern.search(birth_info)`: leftmost match of the alternation. -/
def countrySearch : List Char → Option (String × List Char)
  | [] => none
  | c :: rest =>
    match countryMatchAt (c :: rest) with
    | some r => some r
    | none => countrySearch rest

/-- `re.sub(r"^[・、]", "", s)`: drop one leading separator character. -/
def dropLeadingSep : List Char → List Char
  | [] => []
  | c :: rest => if c = '・' || c = '、' then rest else c :: rest

/-- Regex `[^\d\s]`. -/
def nonDigitSpace (c : Char) : Bool := !pyIsDigit c && !pyIsSpace c

/-- Backtracking over the group length (greedy, longest first) for
`([^\d\s]+州)\s*([^\d\s]+)$` anchored at the start of `run ++ rest`, where
`run` is the maximal `[^\d\s]` run at that position. -/
def usTry (run rest : List Char) : Nat → Option (List Char × List Char)
  | 0 => none
  | 1 => none
  | l + 2 =>
    let g₁ := run.take (l + 2)
    if g₁.length = l + 2 && g₁.getLast? = some '州' then
      let r := run.drop (l + 2) ++ rest
      let g₂ := r.drop (r.takeWhile pyIsSpace).length
      if g₂ ≠ [] && g₂.all nonDigitSpace then some (g₁, g₂)
      else usTry run rest (l + 1)
    else usTry run rest (l + 1)

/-- Backtracking for the optional group of `([^\d\s]+王国)?\s*([^\d\s]+)$`
(group variants longest first, then the group omitted). -/
def kingdomTry (run rest : List Char) : Nat → Option (Option (List Char) × List Char)
  | 0 => none
  | 1 => none
  | 2 => none
  | l + 3 =>
    let g₁ := run.take (l + 3)
    if g₁.length = l + 3 && g₁.drop (l + 1) = ['王', '国'] then
      let r := run.drop (l + 3) ++ rest
      let g₂ := r.drop (r.takeWhile pyIsSpace).length
      if g₂ ≠ [] && g₂.all nonDigitSpace then some (some g₁, g₂)
      else kingdomTry run rest (l + 2)
    else kingdomTry run rest (l + 2)

/-- Match `state_city_pattern` anchored at the head of `cs` (engine preference
order: with the optional/required first group, longest first, then without). -/
def stateCityMatchAt (us : Bool) (cs : List Char) : Option (Option (List Char) × List Char) :=
  let run := cs.takeWhile nonDigitSpace
  let rest := cs.drop run.length
  if us then
    match usTry run rest run.length with
    | some (g₁, g₂) => some (some g₁, g₂)
    | none => none
  else
    match kingdomTry run rest run.length with
    | some r => some r
    | none =>
      let g₂ := cs.drop (cs.takeWhile pyIsSpace).length
      if g₂ ≠ [] && g₂.all nonDigitSpace then some (none, g₂) else none

/-- `state_city_pattern.search(remaining_info)`: leftmost matching position. -/
def stateCitySearch (us : Bool) : List Char → Option (Option (List Char) × List Char)
  | [] => none
  | c :: rest =>
    match stateCityMatchAt us (c :: rest) with
    | some r => some r
    | none => stateCitySearch us rest

/-- The result record of `extract_country_from_birth_info`
(`出身地_国` / `出身地_州/王国` / `出身地_都市`). -/
structure CountryResult where
  country : Option String
  stateOrKingdom : Option String
  city : Option String
deriving DecidableEq, Repr

/-- The all-`None` result the function starts from. -/
def emptyCountryResult : CountryResult := ⟨none, none, none⟩

/-- The country match together with the cleaned remainder
(`birth_info[country_match.end():].strip()` with one leading `・`/`、` dropped). -/
def countryAndRemainder (birth_info : String) : Option (String × List Char) :=
  match countrySearch birth_info.data with
  | some (country, after) => some (country, dropLeadingSep (pyStrip after))
  | none => none

/-- `DataNormalizer.extract_country_from_birth_info`: the three fields are
filled only when a known country is found and the country-specific
state/city pattern matches the remainder; otherwise the initial all-`None`
record is returned. -/
def extract_country_from_birth_info (birth_info : String) : CountryResult :=
  match countryAndRemainder birth_info with
  | none => emptyCountryResult
  | some (country, remaining) =>
    match stateCitySearch (containsSub "アメリカ合衆国".data country.data) remaining with
    | none => emptyCountryResult
    | some (g₁, g₂) =>
      { country := some country,
        stateOrKingdom := g₁.map String.mk,
        city := some (String.mk g₂) }

end DataNormalizer

namespace Config

/-! ## `config.py` — `Config` -/

/-- `Config.EXCLUDED_SECTION_KEYWORDS`, verbatim (the source lists `参考文献`
twice). -/
def excluded_section_keywords : List String :=
  ["著作", "参考文献", "関連文献", "作品", "書誌情報", "参考文献", "選集", "全集",
   "共著", "脚注", "注釈", "出典", "関連項目"]

end Config

namespace FullWidthConverter

/-! ## `utils/full_width_converter.py` — `FullWidthConverter`

`jaconv.h2z(kana=True)` converts halfwidth katakana to fullwidth katakana and
`jaconv.z2h(ascii=True, digit=True)` converts fullwidth ASCII letters, digits
and punctuation to halfwidth. They are modelled on the character repertoire of
this development (see the module conventions): fullwidth forms U+FF01–U+FF5E
map to ASCII; halfwidth katakana does not occur, so `h2z` acts as the
identity; all other characters are fixed points. -/

/-- `jaconv.z2h(·, ascii=True, digit=True)` on one character. -/
def z2hChar (c : Char) : Char :=
  if 0xFF01 ≤ c.toNat && c.toNat ≤ 0xFF5E then Char.ofNat (c.toNat - 0xFF01 + 0x21) else c

/-- The character class `[ 　\t\n]` of the final whitespace cleanup. -/
def jaSpace (c : Char) : Bool :=
  c = ' ' || c = Char.ofNat 0x3000 || c = '\t' || c = '\n'

/-- Auxiliary: `dropWhile` never lengthens a list. -/
theorem dropWhileLenLe (p : Char → Bool) : ∀ l : List Char, (l.dropWhile p).length ≤ l.length
  | [] => Nat.le_refl _
  | c :: rest => by
    by_cases h : p c
    · simpa [List.dropWhile, h] using Nat.le_succ_of_le (dropWhileLenLe p rest)
    · simp [List.dropWhile, h]

/-- `re.sub(r'[ 　\t\n]+', ' ', ·)`: collapse runs to one space. The fuel
argument (initialized to the list length, enough since every step consumes at
least one character) only makes the recursion structural. -/
def collapseJaSpaceFuel : Nat → List Char → List Char
  | 0, cs => cs
  | _, [] => []
  | fuel + 1, c :: rest =>
    if jaSpace c then ' ' :: collapseJaSpaceFuel fuel (rest.dropWhile jaSpace)
    else c :: collapseJaSpaceFuel fuel rest

/-- `re.sub(r'[ 　\t\n]+', ' ', ·)`. -/
def collapseJaSpace (cs : List Char) : List Char := collapseJaSpaceFuel cs.length cs

/-- `FullWidthConverter.convert_to_fullwidth`. -/
def convert_to_fullwidth (cs : List Char) : List Char :=
  pyStrip (collapseJaSpace (cs.map z2hChar))

end FullWidthConverter

namespace Scraper

/-! ## `core/scraper.py` — `Scraper` section extraction

The document delivered to `_extract_headings_and_body` is the flat sibling
sequence of the parsed (and pre-cleaned) article body: MediaWiki renders the
heading `div`s (`mw-heading mw-heading{2,3,4}`) and the body blocks as
siblings. A heading element carries its text (the heading `div` and its inner
`h` tag yield the same `get_text` after the unnecessary-element removal); a
`figure` carries its `str(...)` serialization; `para` covers the
`_is_paragraph_element` tags (`p`, `ul`, non-heading `div`, `blockquote`,
`table`, `dl`, `ol`) and `other` the remaining tags, both carrying their
extracted text. -/

/-- Heading levels h2/h3/h4 (`Config.HEADING_LEVELS`). -/
inductive HLevel where
  | h2
  | h3
  | h4
deriving DecidableEq, Repr

/-- Numeric heading level (`int(heading_level_tag[1])`). -/
def levelNum : HLevel → Nat
  | .h2 => 2
  | .h3 => 3
  | .h4 => 4

/-- Index in `Config.HEADING_LEVELS` (used by `_is_next_heading_level`). -/
def levelIdx : HLevel → Nat
  | .h2 => 0
  | .h3 => 1
  | .h4 => 2

/-- A sibling element of the simplified document tree. -/
inductive Elem where
  | heading (lvl : HLevel) (text : String)
  | para (text : String)
  | figure (html : String)
  | other (text : String)
deriving DecidableEq, Repr

/-- One section record
`{"category_texts": …, "heading_level": …, "heading_text": …, "text": …}`. -/
structure SectionData where
  category_texts : List String
  heading_level : Nat
  heading_text : Option String
  text : String
deriving DecidableEq, Repr

/-- NFKC normalization (`unicodedata.normalize("NFKC", ·)`) on one character,
restricted to the repertoire of this development: fullwidth forms
U+FF01–U+FF5E decompose to ASCII, the ideographic space U+3000 to a space;
CJK ideographs, hiragana, fullwidth katakana and ASCII are NFKC fixed
points. -/
def nfkcChar (c : Char) : Char :=
  if 0xFF01 ≤ c.toNat && c.toNat ≤ 0xFF5E then Char.ofNat (c.toNat - 0xFF01 + 0x21)
  else if c.toNat = 0x3000 then ' '
  else c

/-- `Scraper._normalize_text`. -/
def normalizeText (cs : List Char) : List Char := cs.map nfkcChar

/-- Remove every occurrence of a non-empty literal pattern
(`re.sub(lit, "", ·)`), scanning left to right. The fuel argument
(initialized to the list length) only makes the recursion structural. -/
def removeLitFuel (pat : List Char) : Nat → List Char → List Char
  | 0, cs => cs
  | _, [] => []
  | fuel + 1, c :: rest =>
    if pat.isPrefixOf (c :: rest) ∧ pat ≠ [] then
      removeLitFuel pat fuel ((c :: rest).drop pat.length)
    else c :: removeLitFuel pat fuel rest

/-- `re.sub(lit, "", ·)` for a literal pattern. -/
def removeLit (pat cs : List Char) : List Char := removeLitFuel pat cs.length cs

/-- `re.sub(r"\[\d+\]|\[要出典\]", "", ·)`: remove numeric footnote markers and
citation-needed markers, scanning left to right (first alternative preferred).
The fuel argument (initialized to the list length) only makes the recursion
structural. -/
def removeFootnotesFuel : Nat → List Char → List Char
  | 0, cs => cs
  | _, [] => []
  | fuel + 1, '[' :: rest =>
    let ds := rest.takeWhile pyIsDigit
    if ds ≠ [] ∧ (rest.drop ds.length).head? = some ']' then
      removeFootnotesFuel fuel ((rest.drop ds.length).drop 1)
    else if ['要', '出', '典', ']'].isPrefixOf rest then
      removeFootnotesFuel fuel (rest.drop 4)
    else '[' :: removeFootnotesFuel fuel rest
  | fuel + 1, c :: rest => c :: removeFootnotesFuel fuel rest

/-- `re.sub(r"\[\d+\]|\[要出典\]", "", ·)`. -/
def removeFootnotes (cs : List Char) : List Char := removeFootnotesFuel cs.length cs

/-- The punctuation class removed by `_remove_unnecessary_chars` (the third
`re.sub`), as an explicit character list. -/
def puncChars : List Char :=
  ['!', Char.ofNat 0x22, '#', '$', '%', '&', Char.ofNat 0x27, '(', ')', '*', '+', ',',
   '-', '.', '/', ':', ';', '<', '=', '>', '?', '@', '[', Char.ofNat 0x5C, ']', '^',
   '_', Char.ofNat 0x60, Char.ofNat 0x7B, '|', Char.ofNat 0x7D, '~',
   '！', '”', '＃', '＄', '％', '＆', '’', '（', '）', '＊', '＋', '，', '－', '．',
   '／', '：', '；', '＜', '＝', '＞', '？', '＠', '「', '￥', '」', '＾', '＿', '‘',
   '｜', '’', Char.ofNat 0xFF5B, Char.ofNat 0xFF5D, '～', '©', '®', '…', '—', '–']

/-- `Scraper._remove_unnecessary_chars`. -/
def removeUnnecessaryChars (cs : List Char) : List Char :=
  (removeFootnotes (removeLit "[編集]".data cs)).filter (fun c => ¬ c ∈ puncChars)

/-- `re.sub(Config.FULL_WIDTH_SPACE, " ", ·)`. -/
def replaceFullWidthSpace (cs : List Char) : List Char :=
  cs.map fun c => if c.toNat = 0x3000 then ' ' else c

/-- `re.sub(r'\s+', ' ', ·)`: collapse whitespace runs to one space (fuel as
in `removeLitFuel`). -/
def collapseSpaceFuel : Nat → List Char → List Char
  | 0, cs => cs
  | _, [] => []
  | fuel + 1, c :: rest =>
    if pyIsSpace c then ' ' :: collapseSpaceFuel fuel (rest.dropWhile pyIsSpace)
    else c :: collapseSpaceFuel fuel rest

/-- `re.sub(r'\s+', ' ', ·)`. -/
def collapseSpace (cs : List Char) : List Char := collapseSpaceFuel cs.length cs

/-- `Scraper._normalize_spacing`. -/
def normalizeSpacing (cs : List Char) : List Char :=
  collapseSpace (pyStrip (replaceFullWidthSpace cs))

/-- `Scraper._clean_text`: normalize → remove artifacts → normalize spacing →
width conversion. -/
def cleanText (s : String) : String :=
  String.mk (FullWidthConverter.convert_to_fullwidth
    (normalizeSpacing (removeUnnecessaryChars (normalizeText s.data))))

/-- `_is_next_heading_level`: a sibling stops the content scan when it is a
heading whose `Config.HEADING_LEVELS` index is at most the current one. -/
def isNextHeadingLevel (cur : HLevel) : Elem → Bool
  | .heading hl _ => levelIdx hl ≤ levelIdx cur
  | _ => false

/-- `_is_h2_heading` / `_is_h3_heading`. -/
def isH2 : Elem → Bool
  | .heading .h2 _ => true
  | _ => false

/-- `_is_h3_heading`. -/
def isH3 : Elem → Bool
  | .heading .h3 _ => true
  | _ => false

/-- The `section_text_content_list` join of `_extract_section_content_with_category`:
`"\n".join` of the untitled non-empty sub-texts, then `.strip()`. -/
def joinFragments (subs : List SectionData) : String :=
  String.mk (pyStrip (String.intercalate "\n"
    (subs.filterMap fun s =>
      if s.heading_text = none ∧ s.text ≠ "" then some s.text else none)).data)

/-- The content-sibling loop of `_extract_section_content_with_category`: walk
the following siblings up to the next heading of equal-or-shallower level;
h3/h4 heading siblings recurse (producing a titled sub-record whose own
sub-list is kept only for its text); paragraph-like and other siblings with
non-empty text become untitled fragments at `heading_level + 1`; figures keep
their serialized HTML under the pseudo-heading `Figure`. An h2 sibling cannot
be reached (the scan stops there first); its arm spells out the Python
fallback for a non-h3/h4 `div`, which is the paragraph branch. -/
def processContent (cur : HLevel) (path : List String) : List Elem → List SectionData
  | [] => []
  | e :: rest =>
    if isNextHeadingLevel cur e then []
    else
      (match e with
       | .heading hl t =>
         match hl with
         | .h3 =>
           let cleaned := (path ++ [t]).map cleanText
           let subs := processContent .h3 cleaned rest
           [{ category_texts := cleaned.dropLast, heading_level := 3,
              heading_text := some t, text := joinFragments subs }]
         | .h4 =>
           let cleaned := (path ++ [t]).map cleanText
           let subs := processContent .h4 cleaned rest
           [{ category_texts := cleaned.dropLast, heading_level := 4,
              heading_text := some t, text := joinFragments subs }]
         | .h2 =>
           if t ≠ "" then
             [{ category_texts := path, heading_level := levelNum cur + 1,
                heading_text := none, text := t }]
           else []
       | .para t =>
         if t ≠ "" then
           [{ category_texts := path, heading_level := levelNum cur + 1,
              heading_text := none, text := t }]
         else []
       | .figure h =>
         [{ category_texts := path, heading_level := levelNum cur + 1,
            heading_text := some "Figure", text := h }]
       | .other t =>
         if t ≠ "" then
           [{ category_texts := path, heading_level := levelNum cur + 1,
              heading_text := none, text := t }]
         else [])
      ++ processContent cur path rest

/-- `_extract_section_content_with_category` for a heading of level `hl` with
text `t`, following siblings `rest` and incoming category path `path`:
the returned section record together with the internal sub-record list
(the local `sections` variable, kept by the source only for the text join). -/
def extractSectionContent (hl : HLevel) (t : String) (rest : List Elem)
    (path : List String) : SectionData × List SectionData :=
  let cleaned := (path ++ [t]).map cleanText
  let subs := processContent hl cleaned rest
  ({ category_texts := cleaned.dropLast, heading_level := levelNum hl,
     heading_text := some t, text := joinFragments subs }, subs)

/-- `_extract_h4_sections`: scan the siblings after an h3 heading, stopping at
the next h3 heading, and emit a record for every h4 heading found. -/
def extractH4Sections (catPath : List String) : List Elem → List SectionData
  | [] => []
  | e :: rest =>
    if isH3 e then []
    else
      (match e with
       | .heading .h4 t => [(extractSectionContent .h4 t rest catPath).1]
       | _ => []) ++ extractH4Sections catPath rest

/-- `_extract_h3_sections`: scan the siblings after an h2 heading, stopping at
the next h2 heading; every h3 heading yields its record followed by its h4
sub-records. -/
def extractH3Sections (catPath : List String) : List Elem → List SectionData
  | [] => []
  | e :: rest =>
    if isH2 e then []
    else
      (match e with
       | .heading .h3 t =>
         (extractSectionContent .h3 t rest catPath).1 ::
           extractH4Sections (catPath ++ [t]) rest
       | _ => []) ++ extractH3Sections catPath rest

/-- `Scraper._extract_headings_and_body`: for every h2 heading of the document,
emit its section record followed by the h3/h4 records of its subtree. -/
def extract_headings_and_body : List Elem → List SectionData
  | [] => []
  | e :: rest =>
    (match e with
     | .heading .h2 t =>
       (extractSectionContent .h2 t rest []).1 :: extractH3Sections [t] rest
     | _ => []) ++ extract_headings_and_body rest

/-- The nearest heading text used by `_remove_excluded_sections`:
`section["category_texts"][-1:]` when the category path is non-empty,
otherwise `[section["heading_text"]]`. -/
def nearestHeadingText (s : SectionData) : Option String :=
  if s.category_texts ≠ [] then s.category_texts.getLast? else s.heading_text

/-- The keyword test of `_remove_excluded_sections`
(`any(keyword in heading_text for keyword in excluded_section_keywords)`).
A `none` nearest heading would raise `TypeError` in Python; such records are
never produced by the traversal, and are modelled as not excluded. -/
def matchesExcludedKeyword : Option String → Bool
  | some h => Config.excluded_section_keywords.any fun kw => pyIn kw h
  | none => false

/-- `Scraper._remove_excluded_sections`. -/
def remove_excluded_sections (sections : List SectionData) : List SectionData :=
  sections.filter fun s => ! matchesExcludedKeyword (nearestHeadingText s)

/-- Enumerator of the untitled (`heading_text = None`) fragment records the
traversal produces: for each emitted heading record, the untitled entries of
its internal sub-record list. -/
def fragmentsOf (p : SectionData × List SectionData) : List SectionData :=
  p.2.filter fun s => s.heading_text = none

/-- Fragments produced while emitting the h4 records of `extractH4Sections`. -/
def tracedFragmentsH4 (catPath : List String) : List Elem → List SectionData
  | [] => []
  | e :: rest =>
    if isH3 e then []
    else
      (match e with
       | .heading .h4 t => fragmentsOf (extractSectionContent .h4 t rest catPath)
       | _ => []) ++ tracedFragmentsH4 catPath rest

/-- Fragments produced while emitting the h3/h4 records of `extractH3Sections`. -/
def tracedFragmentsH3 (catPath : List String) : List Elem → List SectionData
  | [] => []
  | e :: rest =>
    if isH2 e then []
    else
      (match e with
       | .heading .h3 t =>
         fragmentsOf (extractSectionContent .h3 t rest catPath) ++
           tracedFragmentsH4 (catPath ++ [t]) rest
       | _ => []) ++ tracedFragmentsH3 catPath rest

/-- All untitled fragment records produced by the section traversal of a
document. -/
def tracedFragments : List Elem → List SectionData
  | [] => []
  | e :: rest =>
    (match e with
     | .heading .h2 t =>
       fragmentsOf (extractSectionContent .h2 t rest []) ++ tracedFragmentsH3 [t] rest
     | _ => []) ++ tracedFragments rest

end Scraper

/-- The nesting depth of a section record in the claims' sense: an h2 section
has depth 1, an h3 section depth 2, an h4 section depth 3, and an untitled
fragment sits one level below its containing section. -/
def nestingDepth (s : Scraper.SectionData) : Nat := s.heading_level - 1

/-- A concrete four-element document: an excluded-keyword h2 section (`脚注`)
containing a paragraph and an innocuously titled h3 subsection (`生涯`) with
its own paragraph. -/
def sectionDocExample : List Scraper.Elem :=
  [.heading .h2 "脚注", .para "前置き", .heading .h3 "生涯", .para "詳細"]

/-! ## Helper lemmas -/

/-- The node-accumulating fold of `graphNodes` never empties a non-empty
accumulator. -/
theorem graphNodesFoldNe (l : List String) :
    ∀ acc : List String, acc ≠ [] →
      l.foldl (fun acc n => if n ∈ acc then acc else acc ++ [n]) acc ≠ [] := by
  induction l with
  | nil => intro acc h; simpa using h
  | cons x xs ih =>
    intro acc h
    simp only [List.foldl_cons]
    by_cases hx : x ∈ acc
    · simp only [if_pos hx]
      exact ih acc h
    · simp only [if_neg hx]
      exact ih (acc ++ [x]) (by simp)

/-- A graph built from a non-empty edge list has at least one node. -/
theorem graphNodesNe (e : Analyzer.Edge) (es : List Analyzer.Edge) :
    Analyzer.graphNodes (e :: es) ≠ [] := by
  unfold Analyzer.graphNodes
  simp only [List.flatMap_cons, List.foldl_append, List.foldl_cons, List.foldl_nil]
  apply graphNodesFoldNe
  by_cases ht : e.target ∈ (if e.source ∈ ([] : List String) then [] else [] ++ [e.source]) <;>
    simp_all

/-- Every run list of `gapRuns` starts with the head year. -/
theorem gapRunsHead :
    ∀ (l : List Int) (y : Int), ∃ g gs, Analyzer.gapRuns (y :: l) = (y :: g) :: gs := by
  intro l
  induction l with
  | nil => intro y; exact ⟨[], [], rfl⟩
  | cons y₂ rest ih =>
    intro y
    obtain ⟨g, gs, hg⟩ := ih y₂
    by_cases hgap : y₂ - y > 3
    · exact ⟨[], (y₂ :: g) :: gs, by simp [Analyzer.gapRuns, hg, hgap]⟩
    · exact ⟨y₂ :: g, gs, by simp [Analyzer.gapRuns, hg, hgap]⟩

/-- Starting the period loop with `None` on a non-empty list is the same as
starting it with the head year. -/
theorem periodsLoopNoneEq (y : Int) (l : List Int) :
    Analyzer.periodsLoop none (y :: l) = Analyzer.periodsLoop (some y) (y :: l) := by
  cases l <;> simp [Analyzer.periodsLoop]

/-- The period loop started at `s` produces `(s, last of first run)` followed
by the `(head, last)` pairs of the remaining runs. -/
theorem periodsLoopEqRuns :
    ∀ (l : List Int) (s : Int), l ≠ [] →
      Analyzer.periodsLoop (some s) l =
        (s, ((Analyzer.gapRuns l).headD []).getLastD 0) ::
          ((Analyzer.gapRuns l).tail.map fun g => (g.headD 0, g.getLastD 0)) := by
  intro l
  induction l with
  | nil => intro s h; exact absurd rfl h
  | cons y rest ih =>
    intro s _
    cases rest with
    | nil => simp [Analyzer.periodsLoop, Analyzer.gapRuns]
    | cons y₂ rest₂ =>
      obtain ⟨g, gs, hg⟩ := gapRunsHead rest₂ y₂
      by_cases hgap : y₂ - y > 3
      · have hnone := periodsLoopNoneEq y₂ rest₂
        have hih := ih y₂ (by simp)
        simp only [Analyzer.periodsLoop, Option.getD_some, if_pos hgap,
          Analyzer.gapRuns, hg]
        rw [hnone, hih, hg]
        simp
      · have hih := ih s (by simp)
        simp only [Analyzer.periodsLoop, Option.getD_some, if_neg hgap,
          Analyzer.gapRuns, hg]
        rw [hih, hg]
        simp

/-- `sortedUniqueYears` of a non-empty list is non-empty. -/
theorem sortedUniqueYearsNe (a : Int) (l : List Int) :
    Analyzer.sortedUniqueYears (a :: l) ≠ [] := by
  unfold Analyzer.sortedUniqueYears
  simp only [List.map_cons, Analyzer.uniqueFirst, Analyzer.sortAsc]
  generalize Analyzer.sortAsc ((Analyzer.uniqueFirst (l.map Analyzer.yearTransform)).filter _) = t
  cases t with
  | nil => simp [Analyzer.insertAsc]
  | cons b bs =>
    simp only [Analyzer.insertAsc]
    by_cases h : Analyzer.yearTransform a ≤ b <;> simp [h]

/-! ## Claim theorems -/

/-- C10: the two era-year converters do not agree — `DataProcessor.convert_to_ce`
takes `year_str[0]`, a single character, as the era and compares it against the
two-character era names, so it returns `None` for every era-prefixed year
string, while `DataNormalizer.convert_japanese_era_to_gregorian` converts
`明治5年` to Gregorian year 1872 = 1868 + 5 − 1 (and `令和3年` to 2021).
This evaluates the code at the failing inputs of the code-bug report. -/
theorem c10_convert_to_ce_era_bug :
    DataProcessor.convert_to_ce "明治5年" = none ∧
    DataNormalizer.convert_japanese_era_to_gregorian "明治5年" = "1872年01月01日" ∧
    DataProcessor.convert_to_ce "令和3年" = none ∧
    DataNormalizer.convert_japanese_era_to_gregorian "令和3年" = "2021年01月01日" := by
  refine ⟨by decide, by decide, by decide, by decide⟩

/-- C4 counterexample: on the one-edge network `A —友人— B` the constructed
graph has 2 > 0 nodes and `analyze_network` returns a centrality mapping with
a `degree_centrality` entry but no `betweenness_centrality` entry, refuting
the claim that the mapping contains both. -/
theorem c4_counterexample :
    ((Analyzer.analyze_network [⟨"A", "B", "友人"⟩] none).centrality.map Prod.fst =
      ["degree_centrality"]) ∧
    ¬ ("betweenness_centrality" ∈
      (Analyzer.analyze_network [⟨"A", "B", "友人"⟩] none).centrality.map Prod.fst) := by
  refine ⟨by decide, by decide⟩

/-- C4 (amended): `analyze_network` computes degree centrality exactly when the
network dataframe is non-empty (equivalently, the constructed graph has node
count > 0), and it never computes betweenness centrality: the centrality
mapping holds the single key `degree_centrality` for non-empty input and is
empty for empty input. -/
theorem c4_centrality_keys (edges : List Analyzer.Edge) (tp : Option String) :
    ((Analyzer.analyze_network edges tp).centrality.map Prod.fst =
      if edges = [] then [] else ["degree_centrality"]) ∧
    ¬ ("betweenness_centrality" ∈
      (Analyzer.analyze_network edges tp).centrality.map Prod.fst) := by
  cases edges with
  | nil => simp [Analyzer.analyze_network]
  | cons e es =>
    have hne := graphNodesNe e es
    have hlen : (Analyzer.graphNodes (e :: es)).length > 0 :=
      List.length_pos.mpr hne
    constructor
    · simp [Analyzer.analyze_network, hlen]
    · simp [Analyzer.analyze_network, hlen]

/-- C3 counterexample: the event token sequence `受賞 就任` contains both a
career keyword (`就任`) and a success keyword (`受賞`), yet it is classified
`success`, not `career_change`: the scan is per token in textual order, so the
claim's "career wins in either textual order" fails. -/
theorem c3_counterexample :
    "就任" ∈ Analyzer.career_keywords ∧
    "受賞" ∈ Analyzer.success_keywords ∧
    Analyzer.determine_event_type_spacy ["受賞", "就任"] = some "success" ∧
    Analyzer.identify_turning_points [(1921, ["受賞", "就任"])] =
      [(1921, ["受賞", "就任"], "success")] := by
  refine ⟨by decide, by decide, by decide, by decide⟩

/-- C3 (amended): classification walks the event's tokens in textual order and,
for each token, checks the categories in the fixed order career-change,
success, failure; the category of the first keyword-bearing token wins. In
particular an event containing both a career and a success keyword is
classified `career_change` exactly when no success/failure keyword precedes
the career keyword. -/
theorem c3_first_keyword_token_wins (pre rest : List String) (t : String)
    (hpre : ∀ u ∈ pre, u ∉ Analyzer.career_keywords ∧ u ∉ Analyzer.success_keywords ∧
      u ∉ Analyzer.failure_keywords) :
    (t ∈ Analyzer.career_keywords →
      Analyzer.determine_event_type_spacy (pre ++ t :: rest) = some "career_change") ∧
    (t ∉ Analyzer.career_keywords → t ∈ Analyzer.success_keywords →
      Analyzer.determine_event_type_spacy (pre ++ t :: rest) = some "success") ∧
    (t ∉ Analyzer.career_keywords → t ∉ Analyzer.success_keywords →
      t ∈ Analyzer.failure_keywords →
      Analyzer.determine_event_type_spacy (pre ++ t :: rest) = some "failure") := by
  induction pre with
  | nil =>
    refine ⟨fun hc => ?_, fun hnc hs => ?_, fun hnc hns hf => ?_⟩
    · simp [Analyzer.determine_event_type_spacy, hc]
    · simp [Analyzer.determine_event_type_spacy, hnc, hs]
    · simp [Analyzer.determine_event_type_spacy, hnc, hns, hf]
  | cons u us ih =>
    obtain ⟨hu₁, hu₂, hu₃⟩ := hpre u (by simp)
    have ih₂ := ih fun v hv => hpre v (by simp [hv])
    simpa [Analyzer.determine_event_type_spacy, hu₁, hu₂, hu₃] using ih₂

/-- Witness for C3 (amended): a career keyword preceded only by non-keyword
tokens yields `career_change`. -/
theorem c3_first_keyword_token_wins_witness :
    Analyzer.determine_event_type_spacy ["その後", "就任"] = some "career_change" := by
  exact (c3_first_keyword_token_wins ["その後"] [] "就任" (by decide)).1 (by decide)

/-- C5: activity-period detection sorts the distinct (sign-stripped) event
years ascending and produces exactly the `(first, last)` pairs of the maximal
runs in which each gap to the next year is at most 3 — a gap of more than 3
closes the current period and opens a new one, and the final open period
closes at the last year; in particular `[1900, 1901, 1903, 1910]` yields
`[(1900, 1903), (1910, 1910)]`. -/
theorem c5_activity_periods :
    (∀ raw : List Int, Analyzer.detect_activity_periods raw =
      Analyzer.specPeriods (Analyzer.sortedUniqueYears raw)) ∧
    Analyzer.detect_activity_periods [1900, 1901, 1903, 1910] =
      [(1900, 1903), (1910, 1910)] := by
  constructor
  · intro raw
    cases raw with
    | nil => rfl
    | cons a l =>
      have hne := sortedUniqueYearsNe a l
      unfold Analyzer.detect_activity_periods
      cases hys : Analyzer.sortedUniqueYears (a :: l) with
      | nil => exact absurd hys hne
      | cons z zs =>
        obtain ⟨g, gs, hg⟩ := gapRunsHead zs z
        rw [periodsLoopNoneEq, periodsLoopEqRuns (z :: zs) z (by simp)]
        unfold Analyzer.specPeriods
        rw [hg]
        simp
  · decide

/-- C9: `extract_country_from_birth_info` is all-or-nothing — the result is the
initial all-`None` record unless a known country is found in the input and the
remainder after it matches the country-specific state/city pattern, in which
case the country and city fields are set; in particular an input consisting of
only a known country name (empty remainder) yields the all-`None` record,
including the country field. -/
theorem c9_country_all_or_nothing :
    (∀ s : String, DataNormalizer.countryAndRemainder s = none →
      DataNormalizer.extract_country_from_birth_info s = DataNormalizer.emptyCountryResult) ∧
    (∀ (s c : String) (rem : List Char),
      DataNormalizer.countryAndRemainder s = some (c, rem) →
      DataNormalizer.stateCitySearch (containsSub "アメリカ合衆国".data c.data) rem = none →
      DataNormalizer.extract_country_from_birth_info s = DataNormalizer.emptyCountryResult) ∧
    (∀ s : String,
      DataNormalizer.extract_country_from_birth_info s = DataNormalizer.emptyCountryResult ∨
      ((DataNormalizer.extract_country_from_birth_info s).country.isSome ∧
        (DataNormalizer.extract_country_from_birth_info s).city.isSome)) ∧
    DataNormalizer.extract_country_from_birth_info "日本" =
      DataNormalizer.emptyCountryResult ∧
    DataNormalizer.extract_country_from_birth_info "アメリカ合衆国" =
      DataNormalizer.emptyCountryResult := by
  refine ⟨?_, ?_, ?_, by decide, by decide⟩
  · intro s h
    simp [DataNormalizer.extract_country_from_birth_info, h]
  · intro s c rem h₁ h₂
    simp [DataNormalizer.extract_country_from_birth_info, h₁, h₂]
  · intro s
    unfold DataNormalizer.extract_country_from_birth_info
    cases hcr : DataNormalizer.countryAndRemainder s with
    | none => exact Or.inl rfl
    | some cr =>
      obtain ⟨c, rem⟩ := cr
      cases hsc : DataNormalizer.stateCitySearch (containsSub "アメリカ合衆国".data c.data) rem with
      | none => exact Or.inl (by simp only [hsc])
      | some g =>
        obtain ⟨g₁, g₂⟩ := g
        exact Or.inr (by simp only [hsc]; exact ⟨rfl, rfl⟩)

/-- Witness for C9: a bare known country name (`ロシア`) has an empty remainder,
the state/city pattern fails on it, and the record stays all-`None`. -/
theorem c9_country_all_or_nothing_witness :
    DataNormalizer.extract_country_from_birth_info "ロシア" =
      DataNormalizer.emptyCountryResult :=
  c9_country_all_or_nothing.2.1 "ロシア" "ロシア" [] (by decide) (by decide)

/-- C8: for parseable `YYYY-MM-DD` dates `calculate_age_at_death` returns
`death_year − birth_year`, minus one exactly when `(death_month, death_day)`
is lexicographically below `(birth_month, birth_day)`, and the sentinel `不明`
propagates whenever either input is `不明`. -/
theorem c8_age_at_death :
    (∀ (b d : String) (byr bm bd dy dm dd : Nat),
      DataExtractor.strptimeYmd b = some (byr, bm, bd) →
      DataExtractor.strptimeYmd d = some (dy, dm, dd) →
      DataExtractor.calculate_age_at_death b d =
        some (intStr ((dy : Int) - (byr : Int) -
          (if dm < bm ∨ (dm = bm ∧ dd < bd) then 1 else 0)))) ∧
    (∀ b d : String, b = "不明" ∨ d = "不明" →
      DataExtractor.calculate_age_at_death b d = some "不明") := by
  constructor
  · intro b d byr bm bd dy dm dd hb hd
    have hnone : DataExtractor.strptimeYmd "不明" = none := by decide
    have hbn : b ≠ "不明" := by
      intro h
      rw [h, hnone] at hb
      exact Option.noConfusion hb
    have hdn : d ≠ "不明" := by
      intro h
      rw [h, hnone] at hd
      exact Option.noConfusion hd
    simp only [DataExtractor.calculate_age_at_death, hb, hd]
    rw [if_neg (by simp [hbn, hdn])]
  · intro b d h
    simp [DataExtractor.calculate_age_at_death, h]

/-- Witness for C8: Einstein's dates give 76; a death date just before the
birthday anniversary subtracts one; the sentinel propagates. -/
theorem c8_age_at_death_witness :
    DataExtractor.calculate_age_at_death "1879-03-14" "1955-04-18" = some "76" ∧
    DataExtractor.calculate_age_at_death "1900-06-01" "1950-05-31" = some "49" ∧
    DataExtractor.calculate_age_at_death "不明" "1955-04-18" = some "不明" := by
  refine ⟨?_, ?_, c8_age_at_death.2 "不明" "1955-04-18" (Or.inl rfl)⟩
  · have h := c8_age_at_death.1 "1879-03-14" "1955-04-18" 1879 3 14 1955 4 18
      (by decide) (by decide)
    rw [h]
    decide
  · have h := c8_age_at_death.1 "1900-06-01" "1950-05-31" 1900 6 1 1950 5 31
      (by decide) (by decide)
    rw [h]
    decide

/-- Dropping the last element of a cleaned `path ++ [own heading]` category
path leaves the cleaned ancestor path. -/
theorem cleanedDropLast (path : List String) (t : String) :
    ((path ++ [t]).map Scraper.cleanText).dropLast = path.map Scraper.cleanText := by
  simp

/-- The section record returned by `_extract_section_content_with_category`:
cleaned ancestor path, own heading level and text, joined fragment text. -/
theorem extractSectionContentFst (hl : Scraper.HLevel) (t : String) (rest : List Scraper.Elem)
    (path : List String) :
    (Scraper.extractSectionContent hl t rest path).1 =
      { category_texts := path.map Scraper.cleanText,
        heading_level := Scraper.levelNum hl,
        heading_text := some t,
        text := Scraper.joinFragments
          (Scraper.processContent hl ((path ++ [t]).map Scraper.cleanText) rest) } := by
  unfold Scraper.extractSectionContent
  simp [cleanedDropLast]

/-- The internal sub-record list produced by
`_extract_section_content_with_category`. -/
theorem extractSectionContentSnd (hl : Scraper.HLevel) (t : String) (rest : List Scraper.Elem)
    (path : List String) :
    (Scraper.extractSectionContent hl t rest path).2 =
      Scraper.processContent hl ((path ++ [t]).map Scraper.cleanText) rest := rfl

/-- Untitled records in a content scan carry the scan's category path and the
scan level plus one. -/
theorem processContentFragments (cur : Scraper.HLevel) (path : List String) :
    ∀ (es : List Scraper.Elem) (s : Scraper.SectionData),
      s ∈ Scraper.processContent cur path es → s.heading_text = none →
      s.category_texts = path ∧ s.heading_level = Scraper.levelNum cur + 1 := by
  intro es
  induction es with
  | nil => intro s h; simp [Scraper.processContent] at h
  | cons e rest ih =>
    intro s hmem hnone
    unfold Scraper.processContent at hmem
    by_cases hbr : Scraper.isNextHeadingLevel cur e
    · simp [hbr] at hmem
    · rw [if_neg (by simp [hbr])] at hmem
      rcases List.mem_append.mp hmem with hhead | htail
      · cases e with
        | heading hl t =>
          cases hl with
          | h2 =>
            by_cases ht : t = ""
            · simp [ht] at hhead
            · simp only [ht, ne_eq, not_false_eq_true, if_pos, List.mem_singleton] at hhead
              subst hhead
              exact ⟨rfl, rfl⟩
          | h3 =>
            rcases List.mem_singleton.mp hhead with rfl
            exact absurd hnone (by simp)
          | h4 =>
            rcases List.mem_singleton.mp hhead with rfl
            exact absurd hnone (by simp)
        | para t =>
          by_cases ht : t = ""
          · simp [ht] at hhead
          · simp only [ht, ne_eq, not_false_eq_true, if_pos, List.mem_singleton] at hhead
            subst hhead
            exact ⟨rfl, rfl⟩
        | figure h =>
          rcases List.mem_singleton.mp hhead with rfl
          exact absurd hnone (by simp)
        | other t =>
          by_cases ht : t = ""
          · simp [ht] at hhead
          · simp only [ht, ne_eq, not_false_eq_true, if_pos, List.mem_singleton] at hhead
            subst hhead
            exact ⟨rfl, rfl⟩
      · exact ih s htail hnone

/-- Records emitted by the h4 scan: level 4, cleaned incoming category path. -/
theorem memExtractH4Sections (catPath : List String) :
    ∀ (es : List Scraper.Elem) (s : Scraper.SectionData),
      s ∈ Scraper.extractH4Sections catPath es →
      s.heading_level = 4 ∧ s.category_texts = catPath.map Scraper.cleanText := by
  intro es
  induction es with
  | nil => intro s h; simp [Scraper.extractH4Sections] at h
  | cons e rest ih =>
    intro s hmem
    unfold Scraper.extractH4Sections at hmem
    by_cases hbr : Scraper.isH3 e
    · simp [hbr] at hmem
    · rw [if_neg (by simp [hbr])] at hmem
      rcases List.mem_append.mp hmem with hhead | htail
      · cases e with
        | heading hl t =>
          cases hl with
          | h2 => simp at hhead
          | h3 => simp at hhead
          | h4 =>
            rcases List.mem_singleton.mp hhead with rfl
            rw [extractSectionContentFst]
            exact ⟨rfl, rfl⟩
        | para t => simp at hhead
        | figure h => simp at hhead
        | other t => simp at hhead
      · exact ih s htail

/-- Records emitted by the h3 scan: either an h3 record over the incoming
category path, or an h4 record over the path extended by the h3 heading. -/
theorem memExtractH3Sections (catPath : List String) :
    ∀ (es : List Scraper.Elem) (s : Scraper.SectionData),
      s ∈ Scraper.extractH3Sections catPath es →
      (s.heading_level = 3 ∧ s.category_texts = catPath.map Scraper.cleanText) ∨
      (∃ t, s.heading_level = 4 ∧
        s.category_texts = (catPath ++ [t]).map Scraper.cleanText) := by
  intro es
  induction es with
  | nil => intro s h; simp [Scraper.extractH3Sections] at h
  | cons e rest ih =>
    intro s hmem
    unfold Scraper.extractH3Sections at hmem
    by_cases hbr : Scraper.isH2 e
    · simp [hbr] at hmem
    · rw [if_neg (by simp [hbr])] at hmem
      rcases List.mem_append.mp hmem with hhead | htail
      · cases e with
        | heading hl t =>
          cases hl with
          | h2 => simp at hhead
          | h3 =>
            rcases List.mem_cons.mp hhead with rfl | hh4
            · left
              rw [extractSectionContentFst]
              exact ⟨rfl, rfl⟩
            · right
              obtain ⟨h4lvl, h4cat⟩ := memExtractH4Sections (catPath ++ [t]) rest s hh4
              exact ⟨t, h4lvl, h4cat⟩
          | h4 => simp at hhead
        | para t => simp at hhead
        | figure h => simp at hhead
        | other t => simp at hhead
      · exact ih s htail

/-- Records emitted by the whole traversal: an h2 record with empty category
path, an h3 record with a one-entry path, or an h4 record with a two-entry
path. -/
theorem memExtractHeadingsAndBody :
    ∀ (doc : List Scraper.Elem) (s : Scraper.SectionData),
      s ∈ Scraper.extract_headings_and_body doc →
      (s.heading_level = 2 ∧ s.category_texts = []) ∨
      (∃ a, s.heading_level = 3 ∧ s.category_texts = [a]) ∨
      (∃ a b, s.heading_level = 4 ∧ s.category_texts = [a, b]) := by
  intro doc
  induction doc with
  | nil => intro s h; simp [Scraper.extract_headings_and_body] at h
  | cons e rest ih =>
    intro s hmem
    unfold Scraper.extract_headings_and_body at hmem
    rcases List.mem_append.mp hmem with hhead | htail
    · cases e with
      | heading hl t =>
        cases hl with
        | h2 =>
          rcases List.mem_cons.mp hhead with rfl | hh3
          · left
            rw [extractSectionContentFst]
            exact ⟨rfl, rfl⟩
          · rcases memExtractH3Sections [t] rest s hh3 with ⟨hlvl, hcat⟩ | ⟨u, hlvl, hcat⟩
            · exact Or.inr (Or.inl ⟨Scraper.cleanText t, hlvl, by simpa using hcat⟩)
            · exact Or.inr (Or.inr ⟨Scraper.cleanText t, Scraper.cleanText u, hlvl,
                by simpa using hcat⟩)
        | h3 => simp at hhead
        | h4 => simp at hhead
      | para t => simp at hhead
      | figure h => simp at hhead
      | other t => simp at hhead
    · exact ih s htail

/-- Fragments traced during the h4 scan: category path one longer than the
incoming one, level 5. -/
theorem memTracedFragmentsH4 (catPath : List String) :
    ∀ (es : List Scraper.Elem) (s : Scraper.SectionData),
      s ∈ Scraper.tracedFragmentsH4 catPath es →
      s.category_texts.length = catPath.length + 1 ∧ s.heading_level = 5 := by
  intro es
  induction es with
  | nil => intro s h; simp [Scraper.tracedFragmentsH4] at h
  | cons e rest ih =>
    intro s hmem
    unfold Scraper.tracedFragmentsH4 at hmem
    by_cases hbr : Scraper.isH3 e
    · simp [hbr] at hmem
    · rw [if_neg (by simp [hbr])] at hmem
      rcases List.mem_append.mp hmem with hhead | htail
      · cases e with
        | heading hl t =>
          cases hl with
          | h2 => simp at hhead
          | h3 => simp at hhead
          | h4 =>
            obtain ⟨hin, hnone⟩ := List.mem_filter.mp hhead
            obtain ⟨hcat, hlvl⟩ := processContentFragments .h4
              ((catPath ++ [t]).map Scraper.cleanText) rest s hin (by simpa using hnone)
            refine ⟨?_, hlvl⟩
            rw [hcat]
            simp
        | para t => simp at hhead
        | figure h => simp at hhead
        | other t => simp at hhead
      · exact ih s htail

/-- Fragments traced during the h3 scan: one or two entries beyond the
incoming category path, with the level 4 resp. 5. -/
theorem memTracedFragmentsH3 (catPath : List String) :
    ∀ (es : List Scraper.Elem) (s : Scraper.SectionData),
      s ∈ Scraper.tracedFragmentsH3 catPath es →
      (s.category_texts.length = catPath.length + 1 ∧ s.heading_level = 4) ∨
      (s.category_texts.length = catPath.length + 2 ∧ s.heading_level = 5) := by
  intro es
  induction es with
  | nil => intro s h; simp [Scraper.tracedFragmentsH3] at h
  | cons e rest ih =>
    intro s hmem
    unfold Scraper.tracedFragmentsH3 at hmem
    by_cases hbr : Scraper.isH2 e
    · simp [hbr] at hmem
    · rw [if_neg (by simp [hbr])] at hmem
      rcases List.mem_append.mp hmem with hhead | htail
      · cases e with
        | heading hl t =>
          cases hl with
          | h2 => simp at hhead
          | h3 =>
            rcases List.mem_append.mp hhead with hfr | hh4
            · obtain ⟨hin, hnone⟩ := List.mem_filter.mp hfr
              obtain ⟨hcat, hlvl⟩ := processContentFragments .h3
                ((catPath ++ [t]).map Scraper.cleanText) rest s hin (by simpa using hnone)
              left
              refine ⟨?_, hlvl⟩
              rw [hcat]
              simp
            · obtain ⟨hlen, hlvl⟩ := memTracedFragmentsH4 (catPath ++ [t]) rest s hh4
              right
              refine ⟨?_, hlvl⟩
              rw [hlen]
              simp
          | h4 => simp at hhead
        | para t => simp at hhead
        | figure h => simp at hhead
        | other t => simp at hhead
      · exact ih s htail

/-- Fragments traced over a whole document: one, two or three category
entries, at level 3, 4 resp. 5. -/
theorem memTracedFragments :
    ∀ (doc : List Scraper.Elem) (s : Scraper.SectionData),
      s ∈ Scraper.tracedFragments doc →
      (s.category_texts.length = 1 ∧ s.heading_level = 3) ∨
      (s.category_texts.length = 2 ∧ s.heading_level = 4) ∨
      (s.category_texts.length = 3 ∧ s.heading_level = 5) := by
  intro doc
  induction doc with
  | nil => intro s h; simp [Scraper.tracedFragments] at h
  | cons e rest ih =>
    intro s hmem
    unfold Scraper.tracedFragments at hmem
    rcases List.mem_append.mp hmem with hhead | htail
    · cases e with
      | heading hl t =>
        cases hl with
        | h2 =>
          rcases List.mem_append.mp hhead with hfr | hh3
          · obtain ⟨hin, hnone⟩ := List.mem_filter.mp hfr
            rw [extractSectionContentSnd] at hin
            obtain ⟨hcat, hlvl⟩ := processContentFragments .h2
              (([] ++ [t]).map Scraper.cleanText) rest s hin (by simpa using hnone)
            left
            refine ⟨?_, hlvl⟩
            rw [hcat]
            simp
          · rcases memTracedFragmentsH3 [t] rest s hh3 with ⟨hlen, hlvl⟩ | ⟨hlen, hlvl⟩
            · exact Or.inr (Or.inl ⟨by simpa using hlen, hlvl⟩)
            · exact Or.inr (Or.inr ⟨by simpa using hlen, hlvl⟩)
        | h3 => simp at hhead
        | h4 => simp at hhead
      | para t => simp at hhead
      | figure h => simp at hhead
      | other t => simp at hhead
    · exact ih s htail

/-- C6 counterexample: in `sectionDocExample` the h3 section titled `生涯`
(whose own title contains no blocklist keyword) is removed, because the
nearest heading consulted for it is the last category-path entry — its h2
ancestor's title `脚注`, which is a blocklist keyword. Exclusion therefore
does propagate from an ancestor's title to a section whose own title is
innocent, refuting "only the section whose own title matches is excluded". -/
theorem c6_counterexample :
    (Scraper.extract_headings_and_body sectionDocExample).map (fun s => s.heading_text) =
      [some "脚注", some "生涯"] ∧
    Scraper.matchesExcludedKeyword (some "生涯") = false ∧
    Scraper.remove_excluded_sections (Scraper.extract_headings_and_body sectionDocExample) =
      [] := by
  refine ⟨by decide, by decide, by decide⟩

/-- C6 (amended): after traversal a section is kept exactly when its nearest
heading text — the last entry of its category path when that is non-empty,
otherwise its own heading — contains no blocklist keyword; and for every
non-h2 record produced by the traversal the category path is non-empty (it
holds the ancestor headings), so nested sections are excluded or kept
according to an ancestor's heading rather than their own. -/
theorem c6_nearest_heading_filter (doc : List Scraper.Elem) (s : Scraper.SectionData)
    (hs : s ∈ Scraper.extract_headings_and_body doc) :
    (s ∈ Scraper.remove_excluded_sections (Scraper.extract_headings_and_body doc) ↔
      Scraper.matchesExcludedKeyword (Scraper.nearestHeadingText s) = false) ∧
    (2 < s.heading_level → s.category_texts ≠ []) := by
  constructor
  · unfold Scraper.remove_excluded_sections
    rw [List.mem_filter]
    constructor
    · intro h
      simpa using h.2
    · intro h
      exact ⟨hs, by simp [h]⟩
  · intro hlvl
    rcases memExtractHeadingsAndBody doc s hs with ⟨h2, _⟩ | ⟨a, _, hcat⟩ | ⟨a, b, _, hcat⟩
    · omega
    · simp [hcat]
    · simp [hcat]

/-- Witness for C6 (amended): in the concrete document the innocently titled
h3 record is not kept, since its nearest heading (the ancestor title `脚注`)
matches the blocklist. -/
theorem c6_nearest_heading_filter_witness :
    ¬ (⟨["脚注"], 3, some "生涯", "詳細"⟩ : Scraper.SectionData) ∈
      Scraper.remove_excluded_sections
        (Scraper.extract_headings_and_body sectionDocExample) := by
  intro hmem
  have h := (c6_nearest_heading_filter sectionDocExample
    (⟨["脚注"], 3, some "生涯", "詳細"⟩ : Scraper.SectionData) (by decide)).1.mp hmem
  exact absurd h (by decide)

/-- C7: for every section record produced by section extraction — the emitted
titled records as well as the untitled (`heading_text = null`) fragments the
traversal creates — the number of category-path entries equals the record's
nesting depth minus one: the path lists exactly the ancestor headings and
excludes the record's own heading. -/
theorem c7_category_depth (doc : List Scraper.Elem) :
    (∀ s ∈ Scraper.extract_headings_and_body doc,
      s.category_texts.length + 1 = nestingDepth s) ∧
    (∀ s ∈ Scraper.tracedFragments doc,
      s.category_texts.length + 1 = nestingDepth s) := by
  constructor
  · intro s hs
    rcases memExtractHeadingsAndBody doc s hs with ⟨hlvl, hcat⟩ | ⟨a, hlvl, hcat⟩ |
      ⟨a, b, hlvl, hcat⟩ <;> simp [nestingDepth, hlvl, hcat]
  · intro s hs
    rcases memTracedFragments doc s hs with ⟨hlen, hlvl⟩ | ⟨hlen, hlvl⟩ | ⟨hlen, hlvl⟩ <;>
      simp [nestingDepth, hlen, hlvl]

/-- Witness for C7: the h3 record and a level-3 fragment of the concrete
document both satisfy the depth invariant. -/
theorem c7_category_depth_witness :
    (⟨["脚注"], 3, some "生涯", "詳細"⟩ : Scraper.SectionData).category_texts.length + 1 =
      nestingDepth (⟨["脚注"], 3, some "生涯", "詳細"⟩ : Scraper.SectionData) ∧
    (⟨["脚注"], 3, none, "前置き"⟩ : Scraper.SectionData).category_texts.length + 1 =
      nestingDepth (⟨["脚注"], 3, none, "前置き"⟩ : Scraper.SectionData) := by
  constructor
  · exact (c7_category_depth sectionDocExample).1 _ (by decide)
  · exact (c7_category_depth sectionDocExample).2 _ (by decide)

/-- `splitChars` never returns the empty list of groups. -/
theorem splitCharsNe (sep : Char) : ∀ l : List Char, splitChars sep l ≠ [] := by
  intro l
  induction l with
  | nil => simp [splitChars]
  | cons c rest ih =>
    unfold splitChars
    cases h : splitChars sep rest with
    | nil => by_cases hc : c = sep <;> simp [hc]
    | cons g gs => by_cases hc : c = sep <;> simp [hc]

/-- Splitting a separator-free list yields the single group. -/
theorem splitCharsNoSep (sep : Char) :
    ∀ l : List Char, (∀ c ∈ l, c ≠ sep) → splitChars sep l = [l] := by
  intro l
  induction l with
  | nil => intro _; rfl
  | cons c rest ih =>
    intro h
    have hc : c ≠ sep := h c (by simp)
    have hrest := ih fun x hx => h x (by simp [hx])
    unfold splitChars
    rw [hrest]
    simp [hc]

/-- Splitting at the first separator after a separator-free prefix. -/
theorem splitCharsSepAppend (sep : Char) :
    ∀ (xs rest : List Char), (∀ c ∈ xs, c ≠ sep) →
      splitChars sep (xs ++ sep :: rest) = xs :: splitChars sep rest := by
  intro xs
  induction xs with
  | nil =>
    intro rest _
    simp only [List.nil_append]
    cases h : splitChars sep rest with
    | nil => exact absurd h (splitCharsNe sep rest)
    | cons g gs => simp [splitChars, h]
  | cons c cs ih =>
    intro rest h
    have hc : c ≠ sep := h c (by simp)
    have hcs := ih rest fun x hx => h x (by simp [hx])
    simp only [List.cons_append]
    simp [splitChars, hcs, hc]

/-- `digitChar` always produces an ASCII digit. -/
theorem pyIsDigitDigitChar (n : Nat) : pyIsDigit (digitChar n) = true := by
  have h : n % 10 < 10 := Nat.mod_lt _ (by norm_num)
  unfold digitChar
  interval_cases hk : n % 10 <;> decide

/-- The digit accumulator only ever adds ASCII digits. -/
theorem natDigitsAuxDigits :
    ∀ (fuel n : Nat) (acc : List Char), (∀ c ∈ acc, pyIsDigit c = true) →
      ∀ c ∈ natDigitsAux fuel n acc, pyIsDigit c = true := by
  intro fuel
  induction fuel with
  | zero =>
    intro n acc hacc c hc
    rcases List.mem_cons.mp hc with rfl | h
    · exact pyIsDigitDigitChar _
    · exact hacc c h
  | succ fuel ih =>
    intro n acc hacc c hc
    unfold natDigitsAux at hc
    by_cases hn : n < 10
    · rw [if_pos hn] at hc
      rcases List.mem_cons.mp hc with rfl | h
      · exact pyIsDigitDigitChar _
      · exact hacc c h
    · rw [if_neg hn] at hc
      refine ih (n / 10) _ ?_ c hc
      intro x hx
      rcases List.mem_cons.mp hx with rfl | h
      · exact pyIsDigitDigitChar _
      · exact hacc x h

/-- `natDigits` produces only ASCII digits. -/
theorem natDigitsDigits (n : Nat) : ∀ c ∈ natDigits n, pyIsDigit c = true :=
  natDigitsAuxDigits n n [] (by simp)

/-- `padZeros` of a digit list contains only ASCII digits. -/
theorem padZerosDigits (w : Nat) (l : List Char) (h : ∀ c ∈ l, pyIsDigit c = true) :
    ∀ c ∈ padZeros w l, pyIsDigit c = true := by
  intro c hc
  rcases List.mem_append.mp hc with hz | hl
  · rcases List.eq_of_mem_replicate hz with rfl
    decide
  · exact h c hl

/-- An ASCII digit is not a hyphen. -/
theorem digitNeHyphen (c : Char) (h : pyIsDigit c = true) : c ≠ '-' := by
  intro hc
  rw [hc] at h
  exact absurd h (by decide)

/-- Splitting a formatted `YYYY-MM-DD` date recovers the three fields. -/
theorem splitFormatYmd (y m d : Nat) :
    splitChars '-' (DataNormalizer.formatYmd y m d) =
      [padZeros 4 (natDigits y), padZeros 2 (natDigits m), padZeros 2 (natDigits d)] := by
  unfold DataNormalizer.formatYmd
  rw [List.append_assoc, List.cons_append]
  rw [splitCharsSepAppend '-' _ _
    (fun c hc => digitNeHyphen c (padZerosDigits 4 _ (natDigitsDigits y) c hc))]
  rw [splitCharsSepAppend '-' _ _
    (fun c hc => digitNeHyphen c (padZerosDigits 2 _ (natDigitsDigits m) c hc))]
  rw [splitCharsNoSep '-' _
    (fun c hc => digitNeHyphen c (padZerosDigits 2 _ (natDigitsDigits d) c hc))]

/-- A successful `normalize_date` always returns a formatted `YYYY-MM-DD`
string. -/
theorem normalizeDateSuccess (s nd : String)
    (h : DataNormalizer.normalize_date s = some nd) :
    ∃ y m d, nd = String.mk (DataNormalizer.formatYmd y m d) := by
  unfold DataNormalizer.normalize_date at h
  by_cases hempty : s = "" ∨ s = "不明"
  · rw [if_pos (by simpa using hempty)] at h
    exact Option.noConfusion h
  · rw [if_neg (by simpa using hempty)] at h
    cases hdp : DataNormalizer.dateparserYmd
        (DataNormalizer.convert_japanese_era_to_gregorian s).data with
    | none => rw [hdp] at h; exact Option.noConfusion h
    | some ymd =>
      obtain ⟨y, m, d⟩ := ymd
      rw [hdp] at h
      exact ⟨y, m, d, (Option.some_injective _ h).symm⟩

/-- The record returned by either date extractor: the single outer key, the
four sub-keys `年月日全体` in order, and the all-`不明` payload whenever the
searched date does not normalize. -/
theorem extractDateRecordShape (k v : String) :
    ∃ fl, DataExtractor.extractDateRecord k v = some [(k, fl)] ∧
      fl.map Prod.fst = ["年", "月", "日", "全体"] ∧
      (((DataExtractor.searchDate v.data).bind
        (fun ds => DataNormalizer.normalize_date (String.mk ds))) = none →
        fl = DataExtractor.unknownFields) := by
  unfold DataExtractor.extractDateRecord
  cases hsd : DataExtractor.searchDate v.data with
  | none => exact ⟨DataExtractor.unknownFields, rfl, by decide, fun _ => rfl⟩
  | some ds =>
    cases hnd : DataNormalizer.normalize_date (String.mk ds) with
    | none =>
      refine ⟨DataExtractor.unknownFields, ?_, by decide, fun _ => rfl⟩
      simp [hnd]
    | some nd =>
      obtain ⟨y, m, d, rfl⟩ := normalizeDateSuccess _ _ hnd
      have hsplit : splitChars '-' (String.mk (DataNormalizer.formatYmd y m d)).data =
          [padZeros 4 (natDigits y), padZeros 2 (natDigits m), padZeros 2 (natDigits d)] :=
        splitFormatYmd y m d
      refine ⟨[("年", String.mk (padZeros 4 (natDigits y))),
        ("月", String.mk (padZeros 2 (natDigits m))),
        ("日", String.mk (padZeros 2 (natDigits d))),
        ("全体", String.mk (DataNormalizer.formatYmd y m d))], ?_, by simp, ?_⟩
      · simp [hnd, hsplit]
      · intro hcontra
        simp only [Option.some_bind] at hcontra
        rw [hcontra] at hnd
        exact Option.noConfusion hnd

/-- C1: for every input string both date extractors return (never raise — the
result is always `some`, the split-unpacking exception path is unreachable) a
record whose single date field carries exactly the four sub-keys
年/月/日/全体 in order, and when the searched date does not normalize every
sub-key holds the sentinel `不明`. -/
theorem c1_date_record_total_shape (v : String) :
    (∃ fl, DataExtractor.extract_and_format_birth_date v = some [("生年月日", fl)] ∧
      fl.map Prod.fst = ["年", "月", "日", "全体"] ∧
      (((DataExtractor.searchDate v.data).bind
        (fun ds => DataNormalizer.normalize_date (String.mk ds))) = none →
        fl = DataExtractor.unknownFields)) ∧
    (∃ fl, DataExtractor.extract_and_format_death_date v = some [("没年月日", fl)] ∧
      fl.map Prod.fst = ["年", "月", "日", "全体"] ∧
      (((DataExtractor.searchDate v.data).bind
        (fun ds => DataNormalizer.normalize_date (String.mk ds))) = none →
        fl = DataExtractor.unknownFields)) :=
  ⟨extractDateRecordShape "生年月日" v, extractDateRecordShape "没年月日" v⟩

/-- Witness for C1: a dateless string and a string whose matched date has an
invalid month both produce the full-shape all-`不明` record. -/
theorem c1_date_record_total_shape_witness :
    DataExtractor.extract_and_format_birth_date "生年不詳" =
      some [("生年月日", DataExtractor.unknownFields)] ∧
    DataExtractor.extract_and_format_death_date "2000年13月40日ごろ" =
      some [("没年月日", DataExtractor.unknownFields)] := by
  constructor
  · obtain ⟨fl, heq, _, hunk⟩ := (c1_date_record_total_shape "生年不詳").1
    rw [heq, hunk (by decide)]
  · obtain ⟨fl, heq, _, hunk⟩ := (c1_date_record_total_shape "2000年13月40日ごろ").2
    rw [heq, hunk (by decide)]

/-- A list is a `isPrefixOf` of itself followed by anything. -/
theorem isPrefixOfAppendSelf : ∀ (l r : List Char), l.isPrefixOf (l ++ r) = true := by
  intro l r
  induction l with
  | nil =>
    simp only [List.nil_append]
    cases r <;> rfl
  | cons a as ih => simp [List.isPrefixOf, ih]

/-- `takeWhile` over an all-true block followed by a failing element. -/
theorem takeWhileAllAppend (p : Char → Bool) :
    ∀ (xs : List Char) (y : Char) (rest : List Char),
      (∀ c ∈ xs, p c = true) → p y = false →
      (xs ++ y :: rest).takeWhile p = xs := by
  intro xs
  induction xs with
  | nil => intro y rest _ hy; simp [List.takeWhile, hy]
  | cons c cs ih =>
    intro y rest h hy
    have hc : p c = true := h c (by simp)
    simp only [List.cons_append, List.takeWhile_cons, hc, if_true]
    rw [ih y rest (fun x hx => h x (by simp [hx])) hy]

/-- The era regex groups on a full `<era><n>年<m>月<d>日` input. -/
theorem eraMatchAtGroups (eraName ys ms ds : List Char)
    (hys : ys ≠ []) (hysd : ∀ c ∈ ys, pyIsDigit c = true)
    (hms : ms ≠ []) (hmsd : ∀ c ∈ ms, pyIsDigit c = true)
    (hds : ds ≠ []) (hdsd : ∀ c ∈ ds, pyIsDigit c = true) :
    DataNormalizer.eraMatchAt eraName
      (eraName ++ (ys ++ ('年' :: (ms ++ ('月' :: (ds ++ ['日'])))))) =
    some (ys, some ms, some ds) := by
  unfold DataNormalizer.eraMatchAt
  rw [isPrefixOfAppendSelf, if_pos rfl, List.drop_left,
    takeWhileAllAppend pyIsDigit ys '年' _ hysd (by decide), if_neg hys, List.drop_left]
  show some (ys, DataNormalizer.eraMonthDay (ms ++ '月' :: (ds ++ ['日']))) =
    some (ys, some ms, some ds)
  unfold DataNormalizer.eraMonthDay DataNormalizer.optDigitGroup
  rw [takeWhileAllAppend pyIsDigit ms '月' _ hmsd (by decide), if_neg hms, List.drop_left]
  rw [show DataNormalizer.afterMonthMark ('月' :: (ds ++ ['日'])) = ds ++ ['日'] from rfl]
  have hd : ds ++ ['日'] = ds ++ '日' :: [] := rfl
  rw [hd, takeWhileAllAppend pyIsDigit ds '日' [] hdsd (by decide), if_neg hds]

/-- The era regex fails when the first characters differ. -/
theorem eraMatchAtNe (a : Char) (as : List Char) (b : Char) (bs : List Char)
    (h : (a == b) = false) :
    DataNormalizer.eraMatchAt (a :: as) (b :: bs) = none := by
  unfold DataNormalizer.eraMatchAt
  simp [List.isPrefixOf, h]

/-- A non-matching era is skipped by the conversion loop. -/
theorem convertEraCharsSkip (era : String) (startYear : Nat) (rest : List (String × Nat))
    (cs : List Char) (h : DataNormalizer.eraMatchAt era.data cs = none) :
    DataNormalizer.convertEraChars ((era, startYear) :: rest) cs =
      DataNormalizer.convertEraChars rest cs := by
  show (match DataNormalizer.eraMatchAt era.data cs with
      | some (ds₁, m, d) =>
        some (natDigits (startYear + pyIntNat ds₁ - 1) ++
          '年' :: m.getD ['0', '1'] ++ '月' :: d.getD ['0', '1'] ++ ['日'])
      | none => DataNormalizer.convertEraChars rest cs) =
    DataNormalizer.convertEraChars rest cs
  rw [h]

/-- A matching era stops the conversion loop and rebuilds the date string. -/
theorem convertEraCharsHit (era : String) (startYear : Nat) (rest : List (String × Nat))
    (cs ys ms ds : List Char)
    (h : DataNormalizer.eraMatchAt era.data cs = some (ys, some ms, some ds)) :
    DataNormalizer.convertEraChars ((era, startYear) :: rest) cs =
      some (natDigits (startYear + pyIntNat ys - 1) ++ '年' :: ms ++ '月' :: ds ++ ['日']) := by
  show (match DataNormalizer.eraMatchAt era.data cs with
      | some (ds₁, m, d) =>
        some (natDigits (startYear + pyIntNat ds₁ - 1) ++
          '年' :: m.getD ['0', '1'] ++ '月' :: d.getD ['0', '1'] ++ ['日'])
      | none => DataNormalizer.convertEraChars rest cs) =
    some (natDigits (startYear + pyIntNat ys - 1) ++ '年' :: ms ++ '月' :: ds ++ ['日'])
  rw [h]
  rfl

/-- A successful loop result determines the wrapper's output string. -/
theorem convertWrapper (cs out : List Char)
    (h : DataNormalizer.convertEraChars DataNormalizer.eras cs = some out) :
    DataNormalizer.convert_japanese_era_to_gregorian (String.mk cs) = String.mk out := by
  unfold DataNormalizer.convert_japanese_era_to_gregorian
  rw [show (String.mk cs).data = cs from rfl, h]

/-- C2: for every date string `<era><n>年<m>月<d>日` with a known era name,
era conversion yields the Gregorian year `era_start + n − 1` over the table
Reiwa=2019, Heisei=1989, Showa=1926, Taisho=1912, Meiji=1868, keeping the
month and day digits; and `normalize_date` maps `令和3年5月1日` to
`2021-05-01` and `平成30年12月31日` to `2018-12-31`. -/
theorem c2_era_to_gregorian :
    (∀ (era : String) (start : Nat), (era, start) ∈ DataNormalizer.eras →
      ∀ ys ms ds : List Char,
        ys ≠ [] → (∀ c ∈ ys, pyIsDigit c = true) →
        ms ≠ [] → (∀ c ∈ ms, pyIsDigit c = true) →
        ds ≠ [] → (∀ c ∈ ds, pyIsDigit c = true) →
        DataNormalizer.convert_japanese_era_to_gregorian
          (String.mk (era.data ++ (ys ++ ('年' :: (ms ++ ('月' :: (ds ++ ['日']))))))) =
        String.mk (natDigits (start + pyIntNat ys - 1) ++ '年' :: ms ++ '月' :: ds ++ ['日'])) ∧
    DataNormalizer.normalize_date "令和3年5月1日" = some "2021-05-01" ∧
    DataNormalizer.normalize_date "平成30年12月31日" = some "2018-12-31" := by
  refine ⟨?_, by decide, by decide⟩
  intro era start hmem ys ms ds hys hysd hms hmsd hds hdsd
  have hmatch : ∀ eraName : List Char,
      DataNormalizer.eraMatchAt eraName
        (eraName ++ (ys ++ ('年' :: (ms ++ ('月' :: (ds ++ ['日'])))))) =
      some (ys, some ms, some ds) :=
    fun en => eraMatchAtGroups en ys ms ds hys hysd hms hmsd hds hdsd
  have he : DataNormalizer.eras =
      [("令和", 2019), ("平成", 1989), ("昭和", 1926), ("大正", 1912), ("明治", 1868)] := rfl
  simp only [DataNormalizer.eras, List.mem_cons, List.mem_singleton, Prod.mk.injEq,
    List.not_mem_nil, or_false] at hmem
  rcases hmem with ⟨rfl, rfl⟩ | ⟨rfl, rfl⟩ | ⟨rfl, rfl⟩ | ⟨rfl, rfl⟩ | ⟨rfl, rfl⟩
  · refine convertWrapper _ _ ?_
    rw [show ("令和" : String).data = ['令', '和'] from rfl, he]
    exact convertEraCharsHit "令和" 2019 _ _ ys ms ds (hmatch ['令', '和'])
  · refine convertWrapper _ _ ?_
    rw [show ("平成" : String).data = ['平', '成'] from rfl, he]
    simp only [List.cons_append, List.nil_append]
    rw [convertEraCharsSkip "令和" 2019 _ _
      (eraMatchAtNe '令' ['和'] '平'
        ('成' :: (ys ++ ('年' :: (ms ++ ('月' :: (ds ++ ['日'])))))) (by decide))]
    exact convertEraCharsHit "平成" 1989 _ _ ys ms ds (hmatch ['平', '成'])
  · refine convertWrapper _ _ ?_
    rw [show ("昭和" : String).data = ['昭', '和'] from rfl, he]
    simp only [List.cons_append, List.nil_append]
    rw [convertEraCharsSkip "令和" 2019 _ _
      (eraMatchAtNe '令' ['和'] '昭'
        ('和' :: (ys ++ ('年' :: (ms ++ ('月' :: (ds ++ ['日'])))))) (by decide))]
    rw [convertEraCharsSkip "平成" 1989 _ _
      (eraMatchAtNe '平' ['成'] '昭'
        ('和' :: (ys ++ ('年' :: (ms ++ ('月' :: (ds ++ ['日'])))))) (by decide))]
    exact convertEraCharsHit "昭和" 1926 _ _ ys ms ds (hmatch ['昭', '和'])
  · refine convertWrapper _ _ ?_
    rw [show ("大正" : String).data = ['大', '正'] from rfl, he]
    simp only [List.cons_append, List.nil_append]
    rw [convertEraCharsSkip "令和" 2019 _ _
      (eraMatchAtNe '令' ['和'] '大'
        ('正' :: (ys ++ ('年' :: (ms ++ ('月' :: (ds ++ ['日'])))))) (by decide))]
    rw [convertEraCharsSkip "平成" 1989 _ _
      (eraMatchAtNe '平' ['成'] '大'
        ('正' :: (ys ++ ('年' :: (ms ++ ('月' :: (ds ++ ['日'])))))) (by decide))]
    rw [convertEraCharsSkip "昭和" 1926 _ _
      (eraMatchAtNe '昭' ['和'] '大'
        ('正' :: (ys ++ ('年' :: (ms ++ ('月' :: (ds ++ ['日'])))))) (by decide))]
    exact convertEraCharsHit "大正" 1912 _ _ ys ms ds (hmatch ['大', '正'])
  · refine convertWrapper _ _ ?_
    rw [show ("明治" : String).data = ['明', '治'] from rfl, he]
    simp only [List.cons_append, List.nil_append]
    rw [convertEraCharsSkip "令和" 2019 _ _
      (eraMatchAtNe '令' ['和'] '明'
        ('治' :: (ys ++ ('年' :: (ms ++ ('月' :: (ds ++ ['日'])))))) (by decide))]
    rw [convertEraCharsSkip "平成" 1989 _ _
      (eraMatchAtNe '平' ['成'] '明'
        ('治' :: (ys ++ ('年' :: (ms ++ ('月' :: (ds ++ ['日'])))))) (by decide))]
    rw [convertEraCharsSkip "昭和" 1926 _ _
      (eraMatchAtNe '昭' ['和'] '明'
        ('治' :: (ys ++ ('年' :: (ms ++ ('月' :: (ds ++ ['日'])))))) (by decide))]
    rw [convertEraCharsSkip "大正" 1912 _ _
      (eraMatchAtNe '大' ['正'] '明'
        ('治' :: (ys ++ ('年' :: (ms ++ ('月' :: (ds ++ ['日'])))))) (by decide))]
    exact convertEraCharsHit "明治" 1868 _ _ ys ms ds (hmatch ['明', '治'])

/-- Witness for C2: `明治5年3月12日` converts to `1872年3月12日`
(1872 = 1868 + 5 − 1). -/
theorem c2_era_to_gregorian_witness :
    DataNormalizer.convert_japanese_era_to_gregorian "明治5年3月12日" = "1872年3月12日" := by
  have h := c2_era_to_gregorian.1 "明治" 1868 (by decide) ['5'] ['3'] ['1', '2']
    (by decide) (by decide) (by decide) (by decide) (by decide) (by decide)
  have hin : (String.mk (("明治" : String).data ++
      (['5'] ++ ('年' :: (['3'] ++ ('月' :: (['1', '2'] ++ ['日']))))))) = "明治5年3月12日" := rfl
  rw [hin] at h
  rw [h]
  decide
